import Mathlib

/-!
Shallow embedding of the message-shaping and completion-client layer of the
swift-academy-agent backend (src/agent/service.py and src/api/routes.py).

Modelling conventions:
* A Python string is modelled as a `List Char`: `len s` is `List.length`,
  `s[:n]` is `List.take n`, `+` on strings is `++`.
* A message dict `{"role": ..., "content": ...}` is the structure `Msg`.
* A Python `dict[str, Any]` context is a list of key/value pairs in the
  dict's (insertion-order) iteration order; a scalar value is modelled by
  its truthiness (`if v`) together with its string form (`f"{v}"`).
* Raising is modelled with `Except`: a function that can raise returns
  `Except PyErr α`, and a `try`/`except Exception` block is a `match` on it.
* In-place mutation (`m["content"] = ...` inside `_clip_messages`) is
  modelled by explicit state passing: `clip_messages` is the returned list
  and `clip_messages_post` is the caller's argument list after the call,
  whose last `MAX_TURNS` entries alias the dicts of the returned tail.
-/

/-- A chat message dict in role/content form (service.py works on
`dict[str, str]` values with keys "role" and "content"). -/
structure Msg where
  role : List Char
  content : List Char
deriving DecidableEq

/-- A Python scalar value as `_ensure_system` consumes it: `truthy` is what
`if v` tests and `str` is what `f"{k}: {v}"` interpolates. -/
structure PyVal where
  truthy : Bool
  str : List Char
deriving DecidableEq

/-- The optional context mapping `dict[str, Any]`, as its ordered sequence of
key/value pairs (Python dicts iterate in insertion order). -/
abbrev Context := List (List Char × PyVal)

/-- service.py line 54: `MAX_TURNS = 12`. -/
def MAX_TURNS : Nat := 12

/-- service.py line 55: `MAX_CONTENT_CHARS = 4000`. -/
def MAX_CONTENT_CHARS : Nat := 4000

/-- service.py lines 33-51: the fixed tutoring system prompt
(the triple-quoted literal after `.strip()`). -/
def SOCRATIC_SYSTEM : String :=
  "You are the Code Coach — a friendly, helpful AI mentor built to teach computer science\nwith a focus on Swift, SwiftUI, and iOS development using Xcode. Most students you support\nare beginners: high schoolers, early college students, or anyone new to programming.\n\nYour job is to explain coding concepts in a simple, beginner-friendly way. Always use plain text\nonly — no markdown formatting (no asterisks for bold, no triple backticks for code blocks, etc.).\n\nKeep your answers short, clear, and focused on the question being asked. Don't over-explain or drift\noff-topic. Avoid technical jargon unless you immediately define it in simple terms. Use real-world\ncomparisons, metaphors, or visual descriptions when they help. Include small, inline code examples\nif useful — make sure they're easy to read on a phone screen.\n\nIf the question is broad or connects to a bigger topic, stay concise but feel free to suggest next\nsteps, e.g., You might also want to learn about ___. Want me to explain that too?\n\nMaintain a warm, encouraging tone — like a patient mentor who wants students to feel confident and\ntruly understand the material."

/-- The role string `"system"`. -/
def sysRole : List Char := "system".toList

/-- service.py lines 66-68, the per-message step of `_clip_messages`:
`content = m.get("content", "")` (content is always present on the dicts the
service receives); `if len(content) > MAX_CONTENT_CHARS:` truncate to the
first `MAX_CONTENT_CHARS` characters. -/
def truncMsg (m : Msg) : Msg :=
  if MAX_CONTENT_CHARS < m.content.length then
    { m with content := m.content.take MAX_CONTENT_CHARS }
  else m

/-- service.py lines 58-69, `_clip_messages`, as the value it returns:
`tail = messages[-MAX_TURNS:]` (the last `MAX_TURNS` entries, all of them
when there are fewer) with each overlong content truncated in the loop. -/
def clip_messages (messages : List Msg) : List Msg :=
  (messages.drop (messages.length - MAX_TURNS)).map truncMsg

/-- The caller's `messages` list as it stands after `_clip_messages`
returns: the slice `messages[-MAX_TURNS:]` is a new list, but its entries
are the same dict objects as the last `MAX_TURNS` entries of `messages`, so
the loop's `m["content"] = content[:MAX_CONTENT_CHARS]` writes are visible
through the caller's list as well. -/
def clip_messages_post (messages : List Msg) : List Msg :=
  messages.take (messages.length - MAX_TURNS) ++ clip_messages messages

/-- service.py line 82:
`ctx_str = ", ".join(f"{k}: {v}" for k, v in context.items() if v)`. -/
def ctx_str (context : Context) : List Char :=
  List.intercalate ", ".toList
    ((context.filter fun kv => kv.2.truthy).map
      fun kv => kv.1 ++ ": ".toList ++ kv.2.str)

/-- service.py lines 80-84: the content of the injected system message.
`system = SOCRATIC_SYSTEM`; `if context:` (false for `None` and for the
empty dict) build `ctx_str`; `if ctx_str:` append `f"\nContext: {ctx_str}"`. -/
def sysText (context : Option Context) : List Char :=
  match context with
  | none => SOCRATIC_SYSTEM.toList
  | some ctx =>
    if ctx = [] then SOCRATIC_SYSTEM.toList
    else
      if ctx_str ctx = [] then SOCRATIC_SYSTEM.toList
      else SOCRATIC_SYSTEM.toList ++ "\nContext: ".toList ++ ctx_str ctx

/-- service.py lines 72-90, `_ensure_system`: both the `not messages or
messages[0].get("role") != "system"` branch (line 87) and the fall-through
branch (line 90) return `[{"role": "system", "content": system}] + messages`,
so the constructed system message is always prepended. -/
def ensure_system (messages : List Msg) (context : Option Context) : List Msg :=
  if messages = [] ∨ messages.head?.map Msg.role ≠ some sysRole then
    ⟨sysRole, sysText context⟩ :: messages
  else
    ⟨sysRole, sysText context⟩ :: messages

/-- service.py lines 131-132, the shaping pipeline inside `get_response`:
`msgs = _clip_messages(messages)` then `msgs = _ensure_system(msgs, context)`. -/
def shape (messages : List Msg) (context : Option Context) : List Msg :=
  ensure_system (clip_messages messages) context

/-- The `message` field of one element of the provider response's `choices`:
`content` may be `None` (service.py line 142 applies `or ""`). -/
structure ProviderMessage where
  content : Option (List Char)
deriving DecidableEq

/-- One element of the provider response's `choices`. -/
structure Choice where
  message : ProviderMessage
deriving DecidableEq

/-- The provider response object, as far as `get_response` reads it. -/
structure CompletionResponse where
  choices : List Choice
deriving DecidableEq

/-- A raised Python exception, identified by its message text. -/
abbrev PyErr := List Char

/-- The `IndexError` that `response.choices[0]` raises on an empty list. -/
def indexErrorMsg : PyErr := "list index out of range".toList

/-- service.py line 147: the fixed fallback string of the `except` branch. -/
def FALLBACK : List Char :=
  "I'm having trouble responding right now. Please try again in a moment.".toList

/-- service.py lines 125-142, the body of `get_response`'s `try` block: shape
the conversation, call the provider (`client.chat.completions.create`, here an
arbitrary function that may raise), and read
`response.choices[0].message.content or ""`; `.error` marks whatever exception
escapes the block (a provider failure, or the `IndexError` of `choices[0]`).
The `user_id` parameter only drives a log line and does not affect the
result. -/
def tryBlock (provider : List Msg → Except PyErr CompletionResponse)
    (messages : List Msg) (context : Option Context) : Except PyErr (List Char) :=
  match provider (shape messages context) with
  | .error e => .error e
  | .ok response =>
    match response.choices with
    | [] => .error indexErrorMsg
    | choice :: _ => .ok (choice.message.content.getD [])

/-- service.py lines 105-147, `AgentService.get_response`: run the `try`
block; any exception it raises is caught by `except Exception` and converted
to the fixed fallback string. -/
def get_response (provider : List Msg → Except PyErr CompletionResponse)
    (messages : List Msg) (user_id : Option (List Char))
    (context : Option Context) : List Char :=
  match tryBlock provider messages context with
  | .ok s => s
  | .error _ => FALLBACK

/-- api/models.py `ChatRequest`: conversation, optional user id, optional
context. -/
structure ChatRequest where
  messages : List Msg
  user_id : Option (List Char)
  context : Option Context

/-- api/models.py `ChatResponse`: a single assistant message. -/
structure ChatResponse where
  message : Msg
deriving DecidableEq

/-- An HTTP error response: status code and detail string. -/
abbrev HttpError := Nat × List Char

/-- api/routes.py lines 14-49, the `/chat` endpoint: convert the request's
messages to dicts, call `get_response`, and wrap the text in an assistant
message. The `try` body is total in this model (`get_response` never raises),
so the `except` branch raising HTTP 500 is never taken and the endpoint
always answers with a success value. -/
def chat (provider : List Msg → Except PyErr CompletionResponse)
    (request : ChatRequest) : Except HttpError ChatResponse :=
  .ok ⟨⟨"assistant".toList,
        get_response provider request.messages request.user_id request.context⟩⟩

/-- `_ensure_system` always prepends the constructed system message. -/
theorem ensure_system_eq (messages : List Msg) (context : Option Context) :
    ensure_system messages context = ⟨sysRole, sysText context⟩ :: messages := by
  unfold ensure_system
  split <;> rfl

/-- `shape` in closed form. -/
theorem shape_eq (messages : List Msg) (context : Option Context) :
    shape messages context =
      ⟨sysRole, sysText context⟩ :: (messages.drop (messages.length - MAX_TURNS)).map truncMsg := by
  unfold shape clip_messages
  rw [ensure_system_eq]

/-- The injected system content always starts with the tutoring prompt. -/
theorem socratic_prefix_sysText (context : Option Context) :
    SOCRATIC_SYSTEM.toList <+: sysText context := by
  unfold sysText
  match context with
  | none => exact List.prefix_refl _
  | some ctx =>
    dsimp only
    split
    · exact List.prefix_refl _
    · split
      · exact List.prefix_refl _
      · exact (List.prefix_append _ _).trans (List.prefix_append _ _)

/-- C6: for every input conversation and every optional context, the first
element of the shaped output has role `system` and its content contains the
fixed tutoring prompt text: the injected system message is always prepended,
whether or not the input already began with one. -/
theorem shaped_head_is_system (messages : List Msg) (context : Option Context) :
    ∃ m : Msg, (shape messages context).head? = some m ∧
      m.role = sysRole ∧ SOCRATIC_SYSTEM.toList <:+: m.content := by
  refine ⟨⟨sysRole, sysText context⟩, ?_, rfl, ?_⟩
  · rw [shape_eq]
    rfl
  · exact (socratic_prefix_sysText context).isInfix

/-- C9: for the empty input conversation, the shaped output is exactly the
one injected system message. -/
theorem shape_nil (context : Option Context) :
    shape [] context = [⟨sysRole, sysText context⟩] := by
  rw [shape_eq]
  rfl

/-- C3: with more than 12 input messages the shaped output is the injected
system message followed by the (possibly content-truncated) last 12 original
messages in their original order, 13 messages in all; with 12 or fewer, every
input message is retained. -/
theorem shape_keeps_last_twelve (messages : List Msg) (context : Option Context) :
    (12 < messages.length →
      shape messages context =
        ⟨sysRole, sysText context⟩ ::
          (messages.drop (messages.length - 12)).map truncMsg ∧
      (messages.drop (messages.length - 12)).length = 12 ∧
      (shape messages context).length = 13) ∧
    (messages.length ≤ 12 →
      shape messages context =
        ⟨sysRole, sysText context⟩ :: messages.map truncMsg ∧
      (shape messages context).length = messages.length + 1) := by
  constructor
  · intro h
    refine ⟨by simp only [shape_eq, MAX_TURNS], ?_, ?_⟩
    · rw [List.length_drop]
      omega
    · rw [shape_eq]
      simp only [List.length_cons, List.length_map, List.length_drop, MAX_TURNS]
      omega
  · intro h
    have h0 : messages.length - MAX_TURNS = 0 := by
      simp only [MAX_TURNS]
      omega
    constructor
    · rw [shape_eq, h0, List.drop_zero]
    · rw [shape_eq, h0, List.drop_zero]
      simp [List.length_map]

/-- C3 witness: a 13-message conversation keeps exactly its last 12 turns, a
1-message conversation keeps its single turn. -/
theorem shape_keeps_last_twelve_witness :
    shape (List.replicate 13 ⟨"user".toList, "hi".toList⟩) none =
      ⟨sysRole, sysText none⟩ ::
        ((List.replicate 13 (⟨"user".toList, "hi".toList⟩ : Msg)).drop
          ((List.replicate 13 (⟨"user".toList, "hi".toList⟩ : Msg)).length - 12)).map truncMsg ∧
    shape [⟨"user".toList, "hi".toList⟩] none =
      ⟨sysRole, sysText none⟩ :: [(⟨"user".toList, "hi".toList⟩ : Msg)].map truncMsg :=
  ⟨((shape_keeps_last_twelve (List.replicate 13 ⟨"user".toList, "hi".toList⟩) none).1
      (by simp)).1,
   ((shape_keeps_last_twelve [⟨"user".toList, "hi".toList⟩] none).2 (by simp)).1⟩

/-- C4: the shaped output's tail is the retained messages passed through
`truncMsg`, and `truncMsg` leaves a content of at most 4000 characters
unchanged while cutting a longer one to exactly its first 4000 characters. -/
theorem shape_truncates_content (messages : List Msg) (context : Option Context) :
    (shape messages context).tail =
      (messages.drop (messages.length - 12)).map truncMsg ∧
    ∀ m : Msg,
      (4000 < m.content.length →
        (truncMsg m).content = m.content.take 4000 ∧
        (truncMsg m).content.length = 4000) ∧
      (m.content.length ≤ 4000 → truncMsg m = m) := by
  constructor
  · rw [shape_eq]
    rfl
  · intro m
    constructor
    · intro h
      simp only [truncMsg, MAX_CONTENT_CHARS]
      rw [if_pos h]
      refine ⟨rfl, ?_⟩
      simp only [List.length_take]
      omega
    · intro h
      simp only [truncMsg, MAX_CONTENT_CHARS]
      rw [if_neg]
      omega

/-- C4 witness: a 4001-character content is cut to its first 4000 characters. -/
theorem shape_truncates_content_witness :
    (shape [(⟨"user".toList, List.replicate 4001 'x'⟩ : Msg)] none).tail =
      ([(⟨"user".toList, List.replicate 4001 'x'⟩ : Msg)].drop
        (([(⟨"user".toList, List.replicate 4001 'x'⟩ : Msg)] : List Msg).length - 12)).map truncMsg ∧
    (truncMsg ⟨"user".toList, List.replicate 4001 'x'⟩).content =
      (List.replicate 4001 'x').take 4000 :=
  ⟨(shape_truncates_content [⟨"user".toList, List.replicate 4001 'x'⟩] none).1,
   (((shape_truncates_content [⟨"user".toList, List.replicate 4001 'x'⟩] none).2
       ⟨"user".toList, List.replicate 4001 'x'⟩).1
      (by rw [List.length_replicate]; omega)).1⟩


/-- C1 fails on the code: with 13 input messages whose first has role
`system`, `_clip_messages` keeps only the last 12, so the caller-supplied
system message is dropped before `_ensure_system` runs — it is neither the
second element of the shaped output nor present in it at all. -/
theorem client_system_dropped :
    (shape (⟨"system".toList, "client".toList⟩ ::
        List.replicate 12 ⟨"user".toList, "hi".toList⟩) none).get? 1 ≠
      some ⟨"system".toList, "client".toList⟩ ∧
    (⟨"system".toList, "client".toList⟩ : Msg) ∉
      shape (⟨"system".toList, "client".toList⟩ ::
        List.replicate 12 ⟨"user".toList, "hi".toList⟩) none := by
  set_option maxRecDepth 10000 in decide

/-- C1 amended: when the input conversation has at most 12 messages (so that
clipping retains all of them) and its first message has role `system` with
content of at most 4000 characters, the shaped output contains that message
as its second element, unchanged; with more than 12 input messages the first
message is removed by clipping. -/
theorem client_system_preserved (messages : List Msg) (context : Option Context)
    (m : Msg) (h1 : messages.head? = some m) (h2 : m.role = sysRole)
    (h3 : messages.length ≤ 12) (h4 : m.content.length ≤ 4000) :
    (shape messages context).get? 1 = some m := by
  rw [shape_eq]
  have h0 : messages.length - MAX_TURNS = 0 := by
    simp only [MAX_TURNS]
    omega
  rw [h0, List.drop_zero]
  cases messages with
  | nil => simp at h1
  | cons a rest =>
    have ha : a = m := by
      simpa using h1
    subst ha
    have htr : truncMsg a = a := by
      simp only [truncMsg, MAX_CONTENT_CHARS]
      rw [if_neg]
      omega
    simp [htr]

/-- C1 amended, witness: a single caller-supplied system message survives as
the second element. -/
theorem client_system_preserved_witness :
    (shape [⟨"system".toList, "client".toList⟩] none).get? 1 =
      some ⟨"system".toList, "client".toList⟩ :=
  client_system_preserved [⟨"system".toList, "client".toList⟩] none
    ⟨"system".toList, "client".toList⟩ rfl rfl (by decide) (by decide)

/-- A single message with content longer than 4000 characters is mutated in
the caller's list by `_clip_messages`. -/
theorem clip_post_ne_of_long (c : List Char) (hc : 4000 < c.length) :
    clip_messages_post [⟨"user".toList, c⟩] ≠ [⟨"user".toList, c⟩] := by
  intro h
  have e : clip_messages_post [(⟨"user".toList, c⟩ : Msg)] =
      [truncMsg ⟨"user".toList, c⟩] := rfl
  rw [e] at h
  have h1 : truncMsg (⟨"user".toList, c⟩ : Msg) = ⟨"user".toList, c⟩ := by
    injection h
  simp only [truncMsg, MAX_CONTENT_CHARS] at h1
  rw [if_pos hc] at h1
  have h2 := congrArg (fun x : Msg => x.content.length) h1
  simp only [List.length_take] at h2
  omega

/-- C2 fails on the code at a concrete input: `_clip_messages` assigns
`m["content"] = content[:MAX_CONTENT_CHARS]` on the caller's own message
dicts, so after shaping a conversation holding one 4001-character message the
caller's list no longer equals its old value — shaping is not pure. -/
theorem clip_mutates_caller :
    clip_messages_post [⟨"user".toList, List.replicate 4001 'x'⟩] ≠
      [⟨"user".toList, List.replicate 4001 'x'⟩] :=
  clip_post_ne_of_long (List.replicate 4001 'x')
    (by rw [List.length_replicate]; omega)

/-- C2 amended: shaping preserves the caller's list length and, when no
message content exceeds 4000 characters, performs no mutation at all; a
retained message with longer content, however, has its content field
truncated in place in the caller's own message object. -/
theorem clip_post_structure (messages : List Msg) :
    (clip_messages_post messages).length = messages.length ∧
    ((∀ m ∈ messages, m.content.length ≤ 4000) →
      clip_messages_post messages = messages) := by
  constructor
  · simp only [clip_messages_post, clip_messages, List.length_append, List.length_take,
      List.length_map, List.length_drop]
    omega
  · intro h
    unfold clip_messages_post clip_messages
    have hmap : (messages.drop (messages.length - MAX_TURNS)).map truncMsg =
        (messages.drop (messages.length - MAX_TURNS)).map id := by
      apply List.map_congr_left
      intro a ha
      have := h a (List.mem_of_mem_drop ha)
      simp only [truncMsg, MAX_CONTENT_CHARS, id]
      rw [if_neg]
      omega
    rw [hmap, List.map_id, List.take_append_drop]

/-- C2 amended, witness: with one short message nothing is mutated. -/
theorem clip_post_structure_witness :
    clip_messages_post [(⟨"user".toList, "hi".toList⟩ : Msg)] =
      [(⟨"user".toList, "hi".toList⟩ : Msg)] :=
  (clip_post_structure [⟨"user".toList, "hi".toList⟩]).2 (by decide)

/-- C5: if the provider call raises, `get_response` returns the fixed
fallback string, and the `/chat` endpoint still answers with a success
response whose assistant message content is that fallback string. -/
theorem provider_error_fallback
    (provider : List Msg → Except PyErr CompletionResponse)
    (messages : List Msg) (u : Option (List Char)) (context : Option Context)
    (e : PyErr) (h : provider (shape messages context) = .error e) :
    get_response provider messages u context = FALLBACK ∧
    chat provider ⟨messages, u, context⟩ =
      .ok ⟨⟨"assistant".toList, FALLBACK⟩⟩ := by
  have hb : tryBlock provider messages context = .error e := by
    unfold tryBlock
    rw [h]
  have hg : get_response provider messages u context = FALLBACK := by
    unfold get_response
    rw [hb]
  exact ⟨hg, by unfold chat; rw [hg]⟩

/-- C5 witness: a provider that raises yields the fallback, end to end. -/
theorem provider_error_fallback_witness :
    get_response (fun _ => .error "boom".toList)
        [⟨"user".toList, "hi".toList⟩] none none = FALLBACK ∧
    chat (fun _ => .error "boom".toList)
        ⟨[⟨"user".toList, "hi".toList⟩], none, none⟩ =
      .ok ⟨⟨"assistant".toList, FALLBACK⟩⟩ :=
  provider_error_fallback (fun _ => .error "boom".toList)
    [⟨"user".toList, "hi".toList⟩] none none "boom".toList rfl

/-- The first chunk of a non-empty intercalation is its head element. -/
theorem intercalate_cons_head (sep x : List Char) (xs : List (List Char)) :
    ∃ t, List.intercalate sep (x :: xs) = x ++ t := by
  cases xs with
  | nil => exact ⟨[], by simp [List.intercalate]⟩
  | cons b t =>
    refine ⟨sep ++ List.intercalate sep (b :: t), ?_⟩
    simp [List.intercalate, List.intersperse_cons_cons]

/-- A context entry with a truthy value makes `ctx_str` non-empty. -/
theorem ctx_str_ne_nil_of_truthy (context : Context) (kv : List Char × PyVal)
    (hmem : kv ∈ context) (htr : kv.2.truthy) : ctx_str context ≠ [] := by
  unfold ctx_str
  have hmem2 : kv ∈ context.filter fun x => x.2.truthy :=
    List.mem_filter.mpr ⟨hmem, htr⟩
  rcases hfe : context.filter (fun x => x.2.truthy) with _ | ⟨a, rest⟩
  · rw [hfe] at hmem2
    cases hmem2
  · rw [hfe, List.map_cons]
    obtain ⟨t, ht⟩ :=
      intercalate_cons_head ", ".toList (a.1 ++ ": ".toList ++ a.2.str)
        ((rest.map fun kv => kv.1 ++ ": ".toList ++ kv.2.str))
    rw [ht]
    intro hnil
    have := congrArg List.length hnil
    simp [List.length_append] at this

/-- C7: when the context has at least one truthy value, the injected system
content is the tutoring prompt followed by a newline, "Context: " and the
"key: value" pairs of exactly the truthy-valued keys, in iteration order,
joined by ", "; in particular for the context mapping lesson to "Variables"
it contains the substring "Context: lesson: Variables". -/
theorem context_suffix_format (context : Context)
    (h : ∃ kv ∈ context, kv.2.truthy) :
    sysText (some context) =
      SOCRATIC_SYSTEM.toList ++ "\nContext: ".toList ++ ctx_str context ∧
    "Context: lesson: Variables".toList <:+:
      sysText (some [("lesson".toList, ⟨true, "Variables".toList⟩)]) := by
  obtain ⟨kv, hmem, htr⟩ := h
  constructor
  · simp only [sysText]
    rw [if_neg (by rintro rfl; cases hmem),
      if_neg (ctx_str_ne_nil_of_truthy context kv hmem htr)]
  · have hval : sysText (some [("lesson".toList, ⟨true, "Variables".toList⟩)]) =
        SOCRATIC_SYSTEM.toList ++ "\nContext: ".toList ++ "lesson: Variables".toList := by
      simp only [sysText]
      rw [if_neg (by simp), if_neg (by decide),
        show ctx_str [("lesson".toList, ⟨true, "Variables".toList⟩)] =
          "lesson: Variables".toList from by decide]
    rw [hval]
    refine ⟨SOCRATIC_SYSTEM.toList ++ ['\n'], [], ?_⟩
    calc (SOCRATIC_SYSTEM.toList ++ ['\n']) ++
          "Context: lesson: Variables".toList ++ []
        = SOCRATIC_SYSTEM.toList ++ (['\n'] ++ "Context: lesson: Variables".toList) := by
          rw [List.append_nil, List.append_assoc]
      _ = SOCRATIC_SYSTEM.toList ++ ("\nContext: ".toList ++ "lesson: Variables".toList) := by
          rw [show (['\n'] ++ "Context: lesson: Variables".toList : List Char) =
                "\nContext: ".toList ++ "lesson: Variables".toList from by decide]
      _ = SOCRATIC_SYSTEM.toList ++ "\nContext: ".toList ++ "lesson: Variables".toList := by
          rw [List.append_assoc]

/-- C7 witness: the context mapping lesson to "Variables". -/
theorem context_suffix_format_witness :
    sysText (some [("lesson".toList, ⟨true, "Variables".toList⟩)]) =
      SOCRATIC_SYSTEM.toList ++ "\nContext: ".toList ++
        ctx_str [("lesson".toList, ⟨true, "Variables".toList⟩)] ∧
    "Context: lesson: Variables".toList <:+:
      sysText (some [("lesson".toList, ⟨true, "Variables".toList⟩)]) :=
  context_suffix_format [("lesson".toList, ⟨true, "Variables".toList⟩)]
    ⟨("lesson".toList, ⟨true, "Variables".toList⟩), by simp, rfl⟩

/-- C8: when the context is absent, empty, or has only falsy values, no
"Context:" suffix is appended and the injected system content is exactly the
tutoring prompt. -/
theorem falsy_context_no_suffix (context : Option Context)
    (h : ∀ ctx, context = some ctx → ∀ kv ∈ ctx, kv.2.truthy = false) :
    sysText context = SOCRATIC_SYSTEM.toList := by
  cases context with
  | none => rfl
  | some ctx =>
    simp only [sysText]
    by_cases hc : ctx = []
    · rw [if_pos hc]
    · rw [if_neg hc]
      have hs : ctx_str ctx = [] := by
        unfold ctx_str
        have hf : ctx.filter (fun x => x.2.truthy) = [] :=
          List.filter_eq_nil_iff.mpr fun a ha => by
            simp [h ctx rfl a ha]
        rw [hf]
        rfl
      rw [if_pos hs]

/-- C8 witness: the context mapping lesson to the empty (falsy) string. -/
theorem falsy_context_no_suffix_witness :
    sysText (some [("lesson".toList, ⟨false, []⟩)]) = SOCRATIC_SYSTEM.toList :=
  falsy_context_no_suffix (some [("lesson".toList, ⟨false, []⟩)]) (by
    intro ctx hceq kv hm
    cases hceq
    simp only [List.mem_singleton] at hm
    subst hm
    rfl)

/-- C10: `get_response` is total over its inputs — every provider outcome
yields a plain string and no exception escapes: a raising provider and an
empty `choices` list both produce the fixed fallback string, and a
successful call produces the first choice's content (the empty string when
that content is `None`); the shaping stage itself is a total function. -/
theorem get_response_total
    (provider : List Msg → Except PyErr CompletionResponse)
    (messages : List Msg) (u : Option (List Char)) (context : Option Context) :
    (∀ e, provider (shape messages context) = .error e →
      get_response provider messages u context = FALLBACK) ∧
    (∀ r, provider (shape messages context) = .ok r → r.choices = [] →
      get_response provider messages u context = FALLBACK) ∧
    (∀ r choice rest, provider (shape messages context) = .ok r →
      r.choices = choice :: rest →
      get_response provider messages u context =
        choice.message.content.getD []) := by
  refine ⟨fun e he => ?_, fun r hr hc => ?_, fun r choice rest hr hc => ?_⟩
  · unfold get_response tryBlock
    rw [he]
  · unfold get_response tryBlock
    rw [hr]
    dsimp only
    rw [hc]
  · unfold get_response tryBlock
    rw [hr]
    dsimp only
    rw [hc]

/-- C10 witness: a provider returning an empty `choices` list (which would
raise `IndexError` inside the try block) still yields the fallback string. -/
theorem get_response_total_witness :
    get_response (fun _ => .ok ⟨[]⟩) [] none none = FALLBACK :=
  (get_response_total (fun _ => .ok ⟨[]⟩) [] none none).2.1 ⟨[]⟩ rfl rfl
